import Mathlib

/-!
# Pilosa server bootstrap (`server/server.go`)

A shallow embedding of `Main.SetupConfig` and `Main.Run` from
`server/server.go`, together with the Go standard-library string and path
helpers they call, and a model of the `Bitmap` merge described in the
specification.

Conventions.

* A Go `string` is a Lean `String`.  Every comparison the code performs is
  against the ASCII bytes `~`, `/` and `.`, so reading a string character by
  character or byte by byte gives the same answers on UTF-8 text.
* A Go `error` is an `Option String`: `none` is `nil`, `some msg` is an error
  whose text is `msg`.
* A method with a pointer receiver returns the updated receiver next to its
  result.  The pointers `m.Server` and `m.Config` are taken to be non-nil, as
  `NewMain` makes them.
-/

namespace Pilosa

/-! ## Go standard library: `strings` -/

namespace strings

/-- Go `strings.HasPrefix(s, p)`: `len(s) >= len(p) && s[:len(p)] == p`. -/
def HasPrefix (s p : String) : Bool :=
  decide (s.data.length ≥ p.data.length) && (s.data.take p.data.length == p.data)

/-- Go `strings.TrimPrefix(s, p)`: `s[len(p):]` when `s` starts with `p`,
otherwise `s` unchanged. -/
def TrimPrefix (s p : String) : String :=
  if HasPrefix s p then String.mk (s.data.drop p.data.length) else s

/-- Go `strings.Join(elems, sep)`. -/
def Join : List String → String → String
  | [], _ => ""
  | [e], _ => e
  | e :: es, sep => e ++ sep ++ Join es sep

end strings

/-! ## Go standard library: `path/filepath` on Unix -/

namespace filepath

/-- The constant `filepath.Separator` on Unix. -/
def Separator : Char := '/'

/-- Unix `os.IsPathSeparator`. -/
def IsPathSeparator (c : Char) : Bool := c == Separator

/-- The state of the `Clean` loop: the bytes written so far (`out`, whose
length is `out.w`) and `dotdot`, the index in `out` where a `..` element must
stop backtracking. -/
structure CleanState where
  out : List Char
  dotdot : Nat
deriving DecidableEq, Repr

/-- The backtracking of the `..` case, run on the reversed buffer:
`out.w--; for out.w > dotdot && !IsPathSeparator(out.index(out.w)) { out.w-- }`.
The argument is `out[:out.w+1]` reversed, so its head is `out.index(out.w)` and
its tail has length `out.w`; the result is `out[:out.w]` reversed when the
loop stops. -/
def backtrack (dotdot : Nat) : List Char → List Char
  | [] => []
  | c :: rev =>
    if rev.length > dotdot && !IsPathSeparator c then backtrack dotdot rev else rev

/-- The `..` case of `Clean` when `out.w > dotdot`: the buffer that is kept. -/
def dropLastElem (dotdot : Nat) (out : List Char) : List Char :=
  (backtrack dotdot out.reverse).reverse

/-- The main loop of `Clean`, `for r < n { switch ... }`, reading the rest of
the path.  Every iteration consumes at least one byte, so `fuel` equal to the
length of the input is enough (`cleanLoop_fuel_irrelevant`). -/
def cleanLoop (rooted : Bool) : Nat → List Char → CleanState → CleanState
  | 0, _, st => st
  | _, [], st => st
  | fuel + 1, c :: rest, st =>
    if IsPathSeparator c then
      -- empty path element
      cleanLoop rooted fuel rest st
    else if c == '.' && (rest.isEmpty || IsPathSeparator (rest.headD ' ')) then
      -- . element
      cleanLoop rooted fuel rest st
    else if c == '.' && rest.headD ' ' == '.' &&
        (rest.tail.isEmpty || IsPathSeparator (rest.tail.headD ' ')) then
      -- .. element: remove to last separator
      if st.out.length > st.dotdot then
        cleanLoop rooted fuel rest.tail { st with out := dropLastElem st.dotdot st.out }
      else if !rooted then
        let out1 := if st.out.length > 0 then st.out ++ [Separator] else st.out
        let out2 := out1 ++ ['.', '.']
        cleanLoop rooted fuel rest.tail { out := out2, dotdot := out2.length }
      else
        cleanLoop rooted fuel rest.tail st
    else
      -- real path element: add slash if needed, then copy the element
      let out1 :=
        if (rooted && st.out.length != 1) || (!rooted && st.out.length != 0) then
          st.out ++ [Separator]
        else st.out
      let elem := (c :: rest).takeWhile (fun x => !IsPathSeparator x)
      let after := (c :: rest).dropWhile (fun x => !IsPathSeparator x)
      cleanLoop rooted fuel after { st with out := out1 ++ elem }

/-- Go `filepath.Clean` on Unix (no volume name, `FromSlash` is the identity). -/
def Clean (path : String) : String :=
  if path == "" then "."
  else
    let rooted := IsPathSeparator (path.data.headD ' ')
    let st0 : CleanState := if rooted then { out := [Separator], dotdot := 1 }
                            else { out := [], dotdot := 0 }
    let r0 := if rooted then path.data.tail else path.data
    let st := cleanLoop rooted path.data.length r0 st0
    -- Turn empty string into "."
    if st.out.length == 0 then "." else String.mk st.out

/-- Go `filepath.Join(elem...)` on Unix: the elements from the first non-empty
one on are joined with the separator and cleaned; all empty gives `""`. -/
def Join : List String → String
  | [] => ""
  | e :: es =>
    if e != "" then Clean (strings.Join (e :: es) (String.singleton Separator))
    else Join es

end filepath

/-! ## The `pilosa` package: the types `server.go` uses

The declarations of `pilosa.Config` and `pilosa.Server` are outside
`server/server.go`; the structures below carry the fields that file reads and
writes, and the configuration values the specification lists. -/

/-- Go `error`: `none` is `nil`. -/
abbrev Error := Option String

/-- Go `errors.New`. -/
def errors.New (text : String) : Error := some text

/-- An `io.Reader` or `io.Writer` value, identified by a handle. -/
abbrev Handle := Nat

/-- Modelled from the spec: the `Cluster` a configuration describes, a
replication factor and an ordered member list (section 3, "Node"). -/
structure Cluster where
  ReplicaN : Nat
  Nodes : List String
deriving DecidableEq, Repr

/-- The `AntiEntropy` section of `pilosa.Config`; `Interval` is a
`pilosa.Duration`, an `int64` count of nanoseconds. -/
structure AntiEntropyConfig where
  Interval : Int
deriving DecidableEq, Repr

/-- Modelled from the spec: `pilosa.Config`, the configuration of section 6
(data directory path, listen address, replication factor, anti-entropy
interval, cluster member list). -/
structure Config where
  DataDir : String
  Host : String
  ReplicaN : Nat
  Nodes : List String
  AntiEntropy : AntiEntropyConfig
deriving DecidableEq, Repr

/-- The `Index` field of `pilosa.Server`: `Path` and `Stats` are the fields
`Run` assigns. -/
structure Index where
  Path : String
  Stats : Nat
deriving DecidableEq, Repr

/-- The fields of `pilosa.Server` that `Run` assigns. -/
structure Server where
  LogOutput : Handle
  Index : Index
  Host : String
  Cluster : Cluster
  AntiEntropyInterval : Int
deriving DecidableEq, Repr

namespace server

/-- The constant `DefaultDataDir`. -/
def DefaultDataDir : String := "~/.pilosa"

/-- The struct `Main`. -/
structure Main where
  Server : Server
  ConfigPath : String
  Config : Config
  CPUProfile : String
  CPUTime : Int
  Stdin : Handle
  Stdout : Handle
  Stderr : Handle
deriving DecidableEq, Repr

/-- What `SetupConfig` reads from outside the program: `os.Getenv`, and
`toml.DecodeFile` applied to a path and the current configuration, which gives
back the configuration as the decoder left it and the decoder's error. -/
structure Env where
  Getenv : String → String
  DecodeFile : String → Config → Config × Error

/-- The method `Main.SetupConfig(args)`: the receiver after the call and the
returned error. -/
def Main.SetupConfig (env : Env) (m : Main) (_args : List String) : Main × Error :=
  -- Load config, if specified.
  let loaded : Main × Error :=
    if m.ConfigPath != "" then
      let r := env.DecodeFile m.ConfigPath m.Config
      ({ m with Config := r.1 }, r.2)
    else (m, none)
  match loaded with
  | (m1, some err) => (m1, some err)
  | (m1, none) =>
    -- Use default data directory if one is not specified.
    let m2 : Main :=
      if m1.Config.DataDir == "" then
        { m1 with Config := { m1.Config with DataDir := DefaultDataDir } }
      else m1
    -- Expand home directory.
    let pfx := "~" ++ String.singleton filepath.Separator
    if strings.HasPrefix m2.Config.DataDir pfx then
      let HomeDir := env.Getenv "HOME"
      if HomeDir == "" then
        (m2, errors.New "data directory not specified and no home dir available")
      else
        ({ m2 with Config := { m2.Config with
            DataDir := filepath.Join [HomeDir, strings.TrimPrefix m2.Config.DataDir pfx] } },
          none)
    else (m2, none)

/-- What `Run` uses from the `pilosa` package: the value of
`pilosa.NewExpvarStatsClient()` and the method `Config.PilosaCluster()`. -/
structure RunEnv where
  NewExpvarStatsClient : Nat
  PilosaCluster : Config → Cluster

/-- The outcome of `Run`: the receiver after the call, what was written with
`fmt.Fprintf` (writer and text, in order), and the returned error. -/
structure RunResult where
  main : Main
  written : List (Handle × String)
  err : Error

/-- The method `Main.Run(args...)`.  `Open` is the method `Server.Open` of the
`pilosa` package: from the server it is called on, the server as it leaves it
and its error. -/
def Main.Run (env : RunEnv) (Open : Pilosa.Server → Pilosa.Server × Error) (m : Main)
    (_args : List String) : RunResult :=
  -- Notify user of config file.
  let w0 : List (Handle × String) :=
    if m.ConfigPath != "" then [(m.Stdout, "Using config: " ++ m.ConfigPath ++ "\n")] else []
  -- Setup logging output.
  let s1 : Pilosa.Server := { m.Server with LogOutput := m.Stderr }
  -- Configure index.
  let w1 := w0 ++ [(m.Stderr, "Using data from: " ++ m.Config.DataDir ++ "\n")]
  let s2 : Pilosa.Server := { s1 with Index := { s1.Index with Path := m.Config.DataDir } }
  let s3 : Pilosa.Server := { s2 with Index := { s2.Index with Stats := env.NewExpvarStatsClient } }
  -- Build cluster from config file.
  let s4 : Pilosa.Server := { s3 with Host := m.Config.Host }
  let s5 : Pilosa.Server := { s4 with Cluster := env.PilosaCluster m.Config }
  -- Set configuration options.
  let s6 : Pilosa.Server := { s5 with AntiEntropyInterval := m.Config.AntiEntropy.Interval }
  -- Initialize server.
  let r := Open s6
  match r.2 with
  | some err => { main := { m with Server := r.1 }, written := w1, err := some err }
  | none =>
    { main := { m with Server := r.1 },
      written := w1 ++ [(m.Stderr, "Listening as http://" ++ r.1.Host ++ "\n")],
      err := none }

/-- An environment whose home directory is `/home/u` and whose decoder
leaves the configuration alone. -/
def envHome : Env where
  Getenv := fun k => if k = "HOME" then "/home/u" else ""
  DecodeFile := fun _ c => (c, none)

/-- An environment with no variable set. -/
def envNoHome : Env where
  Getenv := fun _ => ""
  DecodeFile := fun _ c => (c, none)

/-- A `Main` with no configuration file and the given data directory. -/
def mainWith (dataDir : String) : Main where
  Server := { LogOutput := 0, Index := { Path := "", Stats := 0 }, Host := "",
              Cluster := { ReplicaN := 0, Nodes := [] }, AntiEntropyInterval := 0 }
  ConfigPath := ""
  Config := { DataDir := dataDir, Host := "localhost:15000", ReplicaN := 1, Nodes := [],
              AntiEntropy := { Interval := 600000000000 } }
  CPUProfile := ""
  CPUTime := 0
  Stdin := 0
  Stdout := 1
  Stderr := 2

end server

/-! ## The `Bitmap` of the specification

The bitmap code of the engine is outside `server/server.go`; this section is
written from sections 3 and 4.1 of the specification. -/

/-- Modelled from the spec: the type `Bitmap` (its source is not part of
`server/server.go`), "a set of column IDs", held as the list of the IDs
that are set. -/
structure Bitmap where
  ids : List Nat
deriving DecidableEq, Repr

namespace Bitmap

/-- Modelled from the spec: `Bitmap.Contains(id) bool` (source missing). -/
def Contains (b : Bitmap) (id : Nat) : Bool := decide (id ∈ b.ids)

/-- Modelled from the spec: `Bitmap.Set(id)` (source missing).  An ID that is
already set is not entered again ("no duplicate entries by construction");
a new one is put in front of the first larger ID. -/
def Set (b : Bitmap) (id : Nat) : Bitmap :=
  if b.Contains id then b else { ids := b.ids.orderedInsert (· ≤ ·) id }

/-- Modelled from the spec: `Bitmap.MergeFrom(other)`, the "mutating union"
(source missing): every ID of `other` is set in the receiver.  A block is
passed as the `Bitmap` of the IDs it holds. -/
def MergeFrom (b other : Bitmap) : Bitmap :=
  other.ids.foldl Set b

end Bitmap

/-! ## Theorems -/

namespace strings

theorem hasPrefix_tilde (rest : String) :
    HasPrefix ("~/" ++ rest) ("~" ++ String.singleton filepath.Separator) = true := by
  simp [HasPrefix, filepath.Separator, String.singleton]

theorem trimPrefix_tilde (rest : String) :
    TrimPrefix ("~/" ++ rest) ("~" ++ String.singleton filepath.Separator) = rest := by
  simp [TrimPrefix, HasPrefix, filepath.Separator, String.singleton]

theorem tilde_append_ne_empty (rest : String) : (("~/" ++ rest) == "") = false := by
  simp [String.ext_iff]

theorem tilde_sep : "~" ++ String.singleton filepath.Separator = "~/" := by
  decide

end strings

namespace filepath

theorem length_dropWhile_elem (c : Char) (rest : List Char) (hc : IsPathSeparator c = false) :
    ((c :: rest).dropWhile (fun x => !IsPathSeparator x)).length ≤ rest.length := by
  have h1 : (c :: rest).dropWhile (fun x => !IsPathSeparator x)
      = rest.dropWhile (fun x => !IsPathSeparator x) := by
    simp [List.dropWhile_cons, hc]
  rw [h1]
  exact (List.dropWhile_sublist _).length_le

/-- The fuel of `cleanLoop` never runs out: any two amounts of fuel that are at
least the length of the remaining input give the same result, so `Clean`, which
starts with the length of the whole path, runs the loop to the end of the path. -/
theorem cleanLoop_fuel_irrelevant (rooted : Bool) (n : Nat) :
    ∀ (k : Nat) (l : List Char) (st : CleanState), l.length ≤ n → l.length ≤ k →
      cleanLoop rooted n l st = cleanLoop rooted k l st := by
  induction n with
  | zero =>
    intro k l st hn _
    have hl : l = [] := List.length_eq_zero.mp (Nat.le_zero.mp hn)
    subst hl
    cases k <;> simp [cleanLoop]
  | succ n ih =>
    intro k l st hn hk
    cases l with
    | nil => cases k <;> simp [cleanLoop]
    | cons c rest =>
      cases k with
      | zero => simp at hk
      | succ k =>
        have hn1 : rest.length ≤ n := by simpa using hn
        have hk1 : rest.length ≤ k := by simpa using hk
        have htn : rest.tail.length ≤ n := by
          have := List.length_tail rest; omega
        have htk : rest.tail.length ≤ k := by
          have := List.length_tail rest; omega
        simp only [cleanLoop]
        split
        · exact ih k rest st hn1 hk1
        · next hsep =>
          have hc : IsPathSeparator c = false := by simpa using hsep
          have hd := length_dropWhile_elem c rest hc
          split
          · exact ih k rest st hn1 hk1
          · split
            · split
              · exact ih k rest.tail _ htn htk
              · split
                · exact ih k rest.tail _ htn htk
                · exact ih k rest.tail _ htn htk
            · exact ih k _ _ (le_trans hd hn1) (le_trans hd hk1)

theorem join_two (h rest : String) (hne : h ≠ "") :
    Join [h, rest] = Clean (h ++ "/" ++ rest) := by
  simp [Join, hne, strings.Join, Separator, String.singleton]
  rfl

end filepath

namespace server

/-- With no configuration file, `SetupConfig` only ever changes the data
directory, and it does so in three steps: default, test for `~/`, expand. -/
theorem setupConfig_noFile (env : Env) (m : Main) (args : List String)
    (hpath : m.ConfigPath = "") :
    Main.SetupConfig env m args =
      (let d := if m.Config.DataDir == "" then DefaultDataDir else m.Config.DataDir
       if strings.HasPrefix d "~/" then
         if env.Getenv "HOME" == "" then
           ({ m with Config := { m.Config with DataDir := d } },
             some "data directory not specified and no home dir available")
         else
           ({ m with Config := { m.Config with
               DataDir := filepath.Join [env.Getenv "HOME", strings.TrimPrefix d "~/"] } }, none)
       else ({ m with Config := { m.Config with DataDir := d } }, none)) := by
  rcases m with ⟨srv, cp, ⟨dd, host, rn, nodes, ae⟩, prof, cput, i, o, e⟩
  simp only at hpath
  subst hpath
  have hdef : strings.HasPrefix DefaultDataDir "~/" = true := by decide
  by_cases hd : dd = "" <;> by_cases hp2 : strings.HasPrefix dd "~/" = true
    <;> by_cases hh : env.Getenv "HOME" = ""
    <;> simp [Main.SetupConfig, strings.tilde_sep, errors.New, hd, hdef, hp2, hh]

/-- C1: home-directory expansion.  For every non-empty `HOME` value `h` and
every string `rest`, when `ConfigPath` is empty and `Config.DataDir` is `~/`
followed by `rest`, `SetupConfig` returns nil and leaves `Config.DataDir` equal
to `filepath.Join(h, rest)`, which is the cleaned path of `h + "/" + rest`. -/
theorem SetupConfig_expands_home (env : Env) (m : Main) (args : List String)
    (h rest : String) (hhome : env.Getenv "HOME" = h) (hne : h ≠ "")
    (hpath : m.ConfigPath = "") (hdir : m.Config.DataDir = "~/" ++ rest) :
    (Main.SetupConfig env m args).2 = none ∧
    (Main.SetupConfig env m args).1.Config.DataDir = filepath.Join [h, rest] ∧
    filepath.Join [h, rest] = filepath.Clean (h ++ "/" ++ rest) := by
  have hp : strings.HasPrefix ("~/" ++ rest) "~/" = true := by
    have := strings.hasPrefix_tilde rest
    rwa [strings.tilde_sep] at this
  have ht : strings.TrimPrefix ("~/" ++ rest) "~/" = rest := by
    have := strings.trimPrefix_tilde rest
    rwa [strings.tilde_sep] at this
  have hd : ¬ ("~/" ++ rest = "") := by simpa using strings.tilde_append_ne_empty rest
  refine ⟨?_, ?_, filepath.join_two h rest hne⟩ <;>
    rw [setupConfig_noFile env m args hpath] <;>
    simp [hdir, hd, hp, ht, hhome, hne]

/-- C1 at `HOME=/home/u` and the data directory `~/data/../x`: no error, and
the data directory becomes `/home/u/x`. -/
theorem SetupConfig_expands_home_witness :
    (Main.SetupConfig envHome (mainWith "~/data/../x") []).2 = none ∧
    (Main.SetupConfig envHome (mainWith "~/data/../x") []).1.Config.DataDir = "/home/u/x" ∧
    filepath.Join ["/home/u", "data/../x"] = "/home/u/x" := by
  have key := SetupConfig_expands_home envHome (mainWith "~/data/../x") []
    "/home/u" "data/../x" (by decide) (by decide) rfl (by decide)
  have hc : filepath.Clean ("/home/u" ++ "/" ++ "data/../x") = "/home/u/x" := by decide
  exact ⟨key.1, by rw [key.2.1, key.2.2, hc], by rw [key.2.2, hc]⟩

/-- C2: default data directory.  When `ConfigPath` and `Config.DataDir` are both
empty and `HOME` is a non-empty value `h`, `SetupConfig` returns nil and
`Config.DataDir` becomes `filepath.Join(h, ".pilosa")`, the default directory
`~/.pilosa` expanded under the home directory. -/
theorem SetupConfig_default_dataDir (env : Env) (m : Main) (args : List String)
    (h : String) (hhome : env.Getenv "HOME" = h) (hne : h ≠ "")
    (hpath : m.ConfigPath = "") (hdir : m.Config.DataDir = "") :
    (Main.SetupConfig env m args).2 = none ∧
    (Main.SetupConfig env m args).1.Config.DataDir = filepath.Join [h, ".pilosa"] ∧
    filepath.Join [h, ".pilosa"] =
      filepath.Join [h, strings.TrimPrefix DefaultDataDir "~/"] := by
  have hp : strings.HasPrefix DefaultDataDir "~/" = true := by decide
  have ht : strings.TrimPrefix DefaultDataDir "~/" = ".pilosa" := by decide
  refine ⟨?_, ?_, by rw [ht]⟩ <;>
    rw [setupConfig_noFile env m args hpath] <;>
    simp [hdir, hp, ht, hhome, hne]

/-- C2 at `HOME=/home/u`: no error, and the data directory becomes
`/home/u/.pilosa`. -/
theorem SetupConfig_default_dataDir_witness :
    (Main.SetupConfig envHome (mainWith "") []).2 = none ∧
    (Main.SetupConfig envHome (mainWith "") []).1.Config.DataDir = "/home/u/.pilosa" := by
  have key := SetupConfig_default_dataDir envHome (mainWith "") [] "/home/u"
    (by decide) (by decide) rfl rfl
  have hj : filepath.Join ["/home/u", ".pilosa"] = "/home/u/.pilosa" := by decide
  exact ⟨key.1, by rw [key.2.1, hj]⟩

/-- C3 as stated fails: with no `HOME` and the data directory given as `~/d`,
`SetupConfig` returns the error although the data directory was specified. -/
theorem SetupConfig_error_with_dataDir_given :
    ¬ ((Main.SetupConfig envNoHome (mainWith "~/d") []).2 =
          some "data directory not specified and no home dir available" ↔
        ((mainWith "~/d").Config.DataDir = "" ∧ envNoHome.Getenv "HOME" = "")) := by
  intro hiff
  have herr : (Main.SetupConfig envNoHome (mainWith "~/d") []).2 =
      some "data directory not specified and no home dir available" := by decide
  have hd : (mainWith "~/d").Config.DataDir ≠ "" := by decide
  exact hd (hiff.1 herr).1

/-- C3, amended: with an empty `ConfigPath`, `SetupConfig` returns the error
"data directory not specified and no home dir available" if and only if `HOME`
is empty and `Config.DataDir` on entry is empty or begins with `~/`; in every
other case it returns nil. -/
theorem SetupConfig_error_iff (env : Env) (m : Main) (args : List String)
    (hpath : m.ConfigPath = "") :
    ((Main.SetupConfig env m args).2 =
        some "data directory not specified and no home dir available" ↔
      (env.Getenv "HOME" = "" ∧
        (m.Config.DataDir = "" ∨ strings.HasPrefix m.Config.DataDir "~/" = true))) ∧
    (¬ (env.Getenv "HOME" = "" ∧
        (m.Config.DataDir = "" ∨ strings.HasPrefix m.Config.DataDir "~/" = true)) →
      (Main.SetupConfig env m args).2 = none) := by
  have hdef : strings.HasPrefix DefaultDataDir "~/" = true := by decide
  rw [setupConfig_noFile env m args hpath]
  by_cases hd : m.Config.DataDir = "" <;>
    by_cases hp2 : strings.HasPrefix m.Config.DataDir "~/" = true <;>
    by_cases hh : env.Getenv "HOME" = "" <;>
    simp [hd, hdef, hp2, hh]

/-- C3, amended, at no `HOME` and the data directory `~/d`: the error is
returned. -/
theorem SetupConfig_error_iff_witness :
    (mainWith "~/d").ConfigPath = "" ∧
    (Main.SetupConfig envNoHome (mainWith "~/d") []).2 =
      some "data directory not specified and no home dir available" :=
  ⟨rfl, (SetupConfig_error_iff envNoHome (mainWith "~/d") [] rfl).1.2
    ⟨rfl, Or.inr (by decide)⟩⟩

/-- C4: `SetupConfig` never reads `args`.  Any two argument lists give the same
configuration and the same return value, so no flag is parsed from them; with
the data directory `/var/pilosa`, the arguments `-data-dir /tmp/x` leave the
configuration as it was and nil is returned. -/
theorem SetupConfig_ignores_args :
    (∀ (env : Env) (m : Main) (args1 args2 : List String),
      Main.SetupConfig env m args1 = Main.SetupConfig env m args2) ∧
    Main.SetupConfig envHome (mainWith "/var/pilosa") ["-data-dir", "/tmp/x"] =
      (mainWith "/var/pilosa", none) ∧
    Main.SetupConfig envHome (mainWith "/var/pilosa") [] = (mainWith "/var/pilosa", none) :=
  ⟨fun _ _ _ _ => rfl, by decide, by decide⟩

/-- C5: `Run` hands the configuration to the server before opening it.  There
is one server value `s`, carrying `Config.DataDir` as `Index.Path`,
`Config.Host` as `Host`, `Config.PilosaCluster()` as `Cluster`,
`Config.AntiEntropy.Interval` as `AntiEntropyInterval` and `Main.Stderr` as
`LogOutput`, such that, whatever `Server.Open` does, `Run` calls it on `s`:
the server `Run` leaves and the error it returns are those of `Open s`. -/
theorem Run_configures_server_before_Open (env : RunEnv) (m : Main) (args : List String) :
    ∃ s : Pilosa.Server,
      s.Index.Path = m.Config.DataDir ∧
      s.Host = m.Config.Host ∧
      s.Cluster = env.PilosaCluster m.Config ∧
      s.AntiEntropyInterval = m.Config.AntiEntropy.Interval ∧
      s.LogOutput = m.Stderr ∧
      ∀ Open : Pilosa.Server → Pilosa.Server × Error,
        (Main.Run env Open m args).main.Server = (Open s).1 ∧
        (Main.Run env Open m args).err = (Open s).2 := by
  refine ⟨{ LogOutput := m.Stderr,
            Index := { Path := m.Config.DataDir, Stats := env.NewExpvarStatsClient },
            Host := m.Config.Host,
            Cluster := env.PilosaCluster m.Config,
            AntiEntropyInterval := m.Config.AntiEntropy.Interval },
    rfl, rfl, rfl, rfl, rfl, ?_⟩
  intro Open
  simp only [Main.Run]
  split <;> simp_all

end server

namespace Bitmap

theorem set_of_contains (b : Bitmap) (id : Nat) (h : id ∈ b.ids) : b.Set id = b := by
  simp [Set, Contains, h]

theorem mem_set (b : Bitmap) (id j : Nat) : j ∈ (b.Set id).ids ↔ j = id ∨ j ∈ b.ids := by
  unfold Set Contains
  split
  · next hc =>
    have hc2 : id ∈ b.ids := by simpa using hc
    constructor
    · intro hj; exact Or.inr hj
    · rintro (rfl | hj)
      · exact hc2
      · exact hj
  · simp [List.mem_orderedInsert]

theorem mem_foldl_set (l : List Nat) (b : Bitmap) (j : Nat) :
    j ∈ (l.foldl Set b).ids ↔ j ∈ b.ids ∨ j ∈ l := by
  induction l generalizing b with
  | nil => simp
  | cons a t ih =>
    simp only [List.foldl_cons, ih, mem_set, List.mem_cons]
    tauto

theorem foldl_set_of_subset (l : List Nat) (b : Bitmap) (h : ∀ j ∈ l, j ∈ b.ids) :
    l.foldl Set b = b := by
  induction l with
  | nil => rfl
  | cons a t ih =>
    have ha : a ∈ b.ids := h a (List.mem_cons_self a t)
    simp only [List.foldl_cons, set_of_contains b a ha]
    exact ih (fun j hj => h j (List.mem_cons_of_mem a hj))

/-- `MergeFrom` is the union: an ID is in the merged bitmap exactly when it was
in the receiver or in the merged-in bitmap. -/
theorem mem_MergeFrom (b x : Bitmap) (j : Nat) :
    j ∈ (b.MergeFrom x).ids ↔ j ∈ b.ids ∨ j ∈ x.ids :=
  mem_foldl_set x.ids b j

/-- C6: merge idempotence.  For every `Bitmap` `b` and every block `x`,
merging `x` into `b` twice yields the same `Bitmap` state as merging it once. -/
theorem MergeFrom_idempotent (b x : Bitmap) :
    (b.MergeFrom x).MergeFrom x = b.MergeFrom x := by
  unfold MergeFrom
  apply foldl_set_of_subset
  intro j hj
  exact (mem_foldl_set x.ids b j).2 (Or.inr hj)

end Bitmap

end Pilosa
